import Mathlib

/-!
Verification of the `openapi-to-mcp` pipeline (parser.ts, mapper.ts, generator.ts).

The TypeScript sources are shallowly embedded:
- JS strings are Lean `String`s; the character-level primitives
  (`toUpperCase`, `toLowerCase`, `split('/')`, `charAt(0)`, `slice`) are
  embedded as structurally recursive functions over `List Char` so that every
  definition evaluates inside the kernel.
- JS objects used as ordered maps (`paths`, `content`, `properties`, the
  generated file bundle) are association lists `List (String × α)`;
  assignment `obj[k] = v` is `setKey` (update in place, preserving the
  insertion position of an existing key, appending a fresh key), and access
  `obj[k]` is `List.lookup`.
- `undefined` / absent fields are `Option`; JS `a || b` on strings is
  `jsStrOr` (the empty string is falsy), `x || false` on booleans is
  `Option.getD false`, `x || []` is a plain list field.
- `$ref` nodes (skipped by the extractor) are the `RefOr.ref` constructor.
-/

namespace OpenApiToMcp

/-- Character-level model of `str.charAt(0).toUpperCase() + str.slice(1)`
(`capitalize` in parser.ts); the empty string maps to itself. -/
def capitalizeL : List Char → List Char
  | [] => []
  | c :: cs => c.toUpper :: cs

/-- String wrapper for `capitalize` from parser.ts. -/
def capitalize (s : String) : String :=
  String.mk (capitalizeL s.data)

/-- `s.toLowerCase()` on an ASCII-ranged JS string. -/
def lowerStr (s : String) : String :=
  String.mk (s.data.map Char.toLower)

/-- `s.toUpperCase()` on an ASCII-ranged JS string. -/
def upperStr (s : String) : String :=
  String.mk (s.data.map Char.toUpper)

/-- JS `String.prototype.split('/')` at the character level: `""` splits to
`[""]`, `"/"` to `["", ""]`, separators are not kept. -/
def splitSlash : List Char → List (List Char)
  | [] => [[]]
  | c :: cs =>
    if c = '/' then [] :: splitSlash cs
    else
      match splitSlash cs with
      | [] => [[c]]
      | s :: rest => (c :: s) :: rest

/-- One path segment of `generateOperationId`: a brace-delimited variable
`\x7bname\x7d` becomes `"By" + capitalize(name)` (JS
`part.startsWith('{') && part.endsWith('}')` and `part.slice(1, -1)`),
any other segment is capitalized. -/
def segTokenL (part : List Char) : List Char :=
  if part.head? = some '{' ∧ part.getLast? = some '}' then
    'B' :: 'y' :: capitalizeL ((part.drop 1).dropLast)
  else capitalizeL part

/-- `generateOperationId` from parser.ts: split the path on `/`, keep the
truthy (non-empty) parts, render each part with `segTokenL`, join, and
prepend `capitalize(method.toLowerCase())`. -/
def generateOperationId (method path : String) : String :=
  String.mk (capitalizeL (method.data.map Char.toLower) ++
    ((((splitSlash path.data).filter (fun p => p ≠ [])).map segTokenL).flatten))

/-- Modelled from the spec wording of §4.2: split the path on `/` (here with
Mathlib's `List.splitOn`), drop empty segments; a brace-delimited variable
emits `"By" + Capitalize(name)`, any other segment emits
`Capitalize(segment)`; concatenate and prepend
`Capitalize(lowercased(method))`. -/
def synthesizeSpec (method path : String) : String :=
  String.mk (capitalizeL (method.data.map Char.toLower) ++
    (((path.data.splitOn '/').filter (fun s => s ≠ [])).map (fun seg =>
      if seg.head? = some '{' ∧ seg.getLast? = some '}' then
        'B' :: 'y' :: capitalizeL ((seg.drop 1).dropLast)
      else capitalizeL seg)).flatten)

/-- JS `a || b` for optional strings: the empty string is falsy, so it also
falls through to `b`. -/
def jsStrOr (a b : Option String) : Option String :=
  match a with
  | some s => if s = "" then b else some s
  | none => b

/-- A node of the resolved document that may still be a `$ref` object
(`isReference` in parser.ts); the extractor skips `ref` nodes. -/
inductive RefOr (α : Type) where
  | ref (target : String)
  | obj (val : α)
  deriving Repr, DecidableEq

/-- Flat model of the `JSONSchemaType` record from types.ts.  The recursive
payload fields (`properties`, `items`, …) are never inspected by the code
under verification — schemas are only spread (copied wholesale) with the
`description` field overridden — so the model keeps the fields the claims
observe (`type`, `format`, `description`) as representatives of the copied
payload. -/
structure JSONSchemaType where
  type : Option String
  format : Option String
  description : Option String
  deriving Repr, DecidableEq

/-- `EndpointParameter` from types.ts; the TS field `in` is named
`location` here (`in` is reserved in Lean). -/
structure EndpointParameter where
  name : String
  location : String
  required : Bool
  schema : JSONSchemaType
  description : Option String
  deriving Repr, DecidableEq

/-- `RequestBodySchema` from types.ts. -/
structure RequestBodySchema where
  required : Bool
  contentType : String
  schema : JSONSchemaType
  deriving Repr, DecidableEq

/-- `OpenAPIEndpoint` from types.ts. -/
structure OpenAPIEndpoint where
  operationId : String
  method : String
  path : String
  summary : Option String
  description : Option String
  parameters : List EndpointParameter
  requestBody : Option RequestBodySchema
  securitySchemes : List String
  tags : List String
  deriving Repr, DecidableEq

/-- A raw OpenAPI `ParameterObject` as seen by `extractParameter`:
`required` and `schema` may be absent. -/
structure RawParameter where
  name : String
  location : String
  required : Option Bool
  schema : Option JSONSchemaType
  description : Option String
  deriving Repr, DecidableEq

/-- A raw OpenAPI `MediaTypeObject`: just an optional schema. -/
structure MediaTypeObject where
  schema : Option JSONSchemaType
  deriving Repr, DecidableEq

/-- A raw OpenAPI `RequestBodyObject`: optional `required` flag plus the
`content` map (insertion-ordered, as a JS object). -/
structure RawRequestBody where
  required : Option Bool
  content : List (String × MediaTypeObject)
  deriving Repr, DecidableEq

/-- A raw OpenAPI `OperationObject`, restricted to the fields parser.ts
reads.  `security` holds, per requirement object, the list of its scheme
names (the code only ever takes `Object.keys`); `parameters` and
`requestBody` may still be `$ref` nodes, which the extractor skips. -/
structure Operation where
  operationId : Option String
  summary : Option String
  description : Option String
  parameters : List (RefOr RawParameter)
  requestBody : Option (RefOr RawRequestBody)
  security : List (List String)
  tags : List String
  deriving Repr, DecidableEq

/-- A raw `PathItemObject`: one optional operation per HTTP method of the
fixed method set, plus path-level parameters. -/
structure PathItem where
  get : Option Operation
  post : Option Operation
  put : Option Operation
  patch : Option Operation
  delete : Option Operation
  head : Option Operation
  options : Option Operation
  parameters : List (RefOr RawParameter)
  deriving Repr, DecidableEq

/-- `SecurityScheme` from types.ts, restricted to the discriminating `type`
field (the scheme payload is carried through the pipeline untouched and no
claim observes it). -/
structure SecurityScheme where
  type : String
  deriving Repr, DecidableEq

/-- The reference-resolved OpenAPI document as read by `extractFromSpec`:
`paths` is the insertion-ordered path map (`none` models a null entry,
`RefOr.ref` a `$ref` path item — both are skipped); `servers` keeps only
the `url` of each server entry; `securitySchemes` is
`components.securitySchemes`. -/
structure ApiDoc where
  title : String
  version : String
  description : Option String
  servers : List String
  paths : List (String × Option (RefOr PathItem))
  securitySchemes : List (String × RefOr SecurityScheme)
  deriving Repr, DecidableEq

/-- `ParsedOpenAPI` from types.ts. -/
structure ParsedOpenAPI where
  title : String
  version : String
  description : Option String
  baseUrl : String
  endpoints : List OpenAPIEndpoint
  securitySchemes : List (String × SecurityScheme)
  deriving Repr, DecidableEq

/-- `extractParameter` from parser.ts: `required` defaults to `false`
(`param.required || false`), a missing schema defaults to
`\x7b type: 'string' \x7d`. -/
def extractParameter (param : RawParameter) : EndpointParameter :=
  { name := param.name
    location := param.location
    required := param.required.getD false
    schema := match param.schema with
      | some s => s
      | none => { type := some "string", format := none, description := none }
    description := param.description }

/-- `extractRequestBody` from parser.ts: prefer `application/json` when its
media object carries a schema; otherwise fall back to the first entry of
the `content` map (JS destructuring of `Object.entries(content)[0]`, so the
entry's key must be truthy and its media object must carry a schema);
return `none` when neither branch yields a schema. -/
def extractRequestBody (body : RawRequestBody) : Option RequestBodySchema :=
  match (List.lookup "application/json" body.content).bind (fun mt => mt.schema) with
  | some s =>
      some { required := body.required.getD false
             contentType := "application/json"
             schema := s }
  | none =>
      match body.content.head? with
      | some (contentType, mediaType) =>
          if contentType ≠ "" then
            match mediaType.schema with
            | some s =>
                some { required := body.required.getD false
                       contentType := contentType
                       schema := s }
            | none => none
          else none
      | none => none

/-- `extractEndpoint` from parser.ts: concatenate path-level and
operation-level parameters (skipping `$ref` nodes), extract the request
body (skipping a `$ref` body), flatten the security requirement objects to
one name list, and synthesize the operationId when the source omits it
(JS `operation.operationId || generateOperationId(...)`, so an empty
explicit id is also replaced). -/
def extractEndpoint (path method : String) (operation : Operation)
    (pathParameters : List (RefOr RawParameter)) : OpenAPIEndpoint :=
  { operationId := match operation.operationId with
      | some oid => if oid = "" then generateOperationId method path else oid
      | none => generateOperationId method path
    method := method
    path := path
    summary := operation.summary
    description := operation.description
    parameters := (pathParameters ++ operation.parameters).filterMap (fun p =>
      match p with
      | RefOr.ref _ => none
      | RefOr.obj q => some (extractParameter q))
    requestBody := match operation.requestBody with
      | some (RefOr.obj rb) => extractRequestBody rb
      | _ => none
    securitySchemes := operation.security.flatten
    tags := operation.tags }

/-- The fixed method set iterated by `extractFromSpec`, in source order,
each name paired with the `PathItem` accessor it reads. -/
def httpMethods : List (String × (PathItem → Option Operation)) :=
  [("get", PathItem.get), ("post", PathItem.post), ("put", PathItem.put),
   ("patch", PathItem.patch), ("delete", PathItem.delete),
   ("head", PathItem.head), ("options", PathItem.options)]

/-- `extractFromSpec` from parser.ts: security schemes (skipping `$ref`
entries), `baseUrl` from the first server entry (`'' ` when none), and the
endpoint list obtained by walking paths in declaration order and, per path
item, the fixed method set in its fixed order, uppercasing the method. -/
def extractFromSpec (api : ApiDoc) : ParsedOpenAPI :=
  { title := api.title
    version := api.version
    description := api.description
    baseUrl := api.servers.head?.getD ""
    endpoints := api.paths.flatMap (fun entry =>
      match entry.2 with
      | some (RefOr.obj item) =>
          httpMethods.filterMap (fun m =>
            (m.2 item).map (fun operation =>
              extractEndpoint entry.1 (upperStr m.1) operation item.parameters))
      | _ => [])
    securitySchemes := api.securitySchemes.filterMap (fun entry =>
      match entry.2 with
      | RefOr.obj s => some (entry.1, s)
      | RefOr.ref _ => none) }

/-- The `inputSchema` node built by `buildInputSchema` in mapper.ts: always
`type: "object"` with a `properties` map; `required` is `none` exactly when
the key is omitted from the emitted object. -/
structure InputSchema where
  type : String
  properties : List (String × JSONSchemaType)
  required : Option (List String)
  deriving Repr, DecidableEq

/-- `McpToolDefinition` from types.ts. -/
structure McpToolDefinition where
  name : String
  description : String
  inputSchema : InputSchema
  httpMethod : String
  pathTemplate : String
  parameters : List EndpointParameter
  requestBodyContentType : Option String
  securitySchemes : List String
  deriving Repr, DecidableEq

/-- JS object assignment `obj[k] = v` on an insertion-ordered object: an
existing key keeps its position and gets the new value, a fresh key is
appended. -/
def setKey {α : Type} : List (String × α) → String → α → List (String × α)
  | [], k, v => [(k, v)]
  | (k', v') :: rest, k, v =>
      if k' = k then (k, v) :: rest else (k', v') :: setKey rest k v

/-- The property node mapper.ts stores for one parameter:
`\x7b ...param.schema, description: param.description || param.schema.description \x7d`. -/
def paramProperty (param : EndpointParameter) : JSONSchemaType :=
  { param.schema with description := jsStrOr param.description param.schema.description }

/-- One iteration of the parameter loop of `buildInputSchema`: write the
property node and, when the parameter is required, push its name. -/
def schemaStep (acc : List (String × JSONSchemaType) × List String)
    (param : EndpointParameter) : List (String × JSONSchemaType) × List String :=
  (setKey acc.1 param.name (paramProperty param),
   if param.required then acc.2 ++ [param.name] else acc.2)

/-- `buildInputSchema` from mapper.ts: fold the parameter loop, then add the
request body under the reserved key `requestBody` with the fixed
description `"The JSON request body."`, pushing `"requestBody"` when the
body is required; emit `required` only when non-empty. -/
def buildInputSchema (endpoint : OpenAPIEndpoint) : InputSchema :=
  let acc0 := endpoint.parameters.foldl schemaStep ([], [])
  let acc := match endpoint.requestBody with
    | some rb =>
        (setKey acc0.1 "requestBody"
          { rb.schema with description := some "The JSON request body." },
         if rb.required then acc0.2 ++ ["requestBody"] else acc0.2)
    | none => acc0
  { type := "object"
    properties := acc.1
    required := if acc.2.length > 0 then some acc.2 else none }

/-- `mapEndpointToTool` from mapper.ts: description is the summary when
truthy, else `"Executes METHOD path"`, with the endpoint description
appended after a blank line when truthy and different from the summary;
the tool method is lowercased, everything else is carried through. -/
def mapEndpointToTool (endpoint : OpenAPIEndpoint) : McpToolDefinition :=
  let base := match endpoint.summary with
    | some s => if s = "" then "Executes " ++ endpoint.method ++ " " ++ endpoint.path else s
    | none => "Executes " ++ endpoint.method ++ " " ++ endpoint.path
  { name := endpoint.operationId
    description := match endpoint.description with
      | some d =>
          if d = "" then base
          else if endpoint.summary = some d then base
          else base ++ "\n\n" ++ d
      | none => base
    inputSchema := buildInputSchema endpoint
    httpMethod := lowerStr endpoint.method
    pathTemplate := endpoint.path
    parameters := endpoint.parameters
    requestBodyContentType := endpoint.requestBody.map (fun rb => rb.contentType)
    securitySchemes := endpoint.securitySchemes }

/-- `mapToMcpTools` from mapper.ts: keep every endpoint when no allow-list
is supplied, otherwise keep the endpoints whose `METHOD:path` key is a
member, then map each survivor to its tool. -/
def mapToMcpTools (endpoints : List OpenAPIEndpoint)
    (enabledPaths : Option (List String)) : List McpToolDefinition :=
  (endpoints.filter (fun endpoint =>
    match enabledPaths with
    | none => true
    | some s => s.contains (endpoint.method ++ ":" ++ endpoint.path))).map
      mapEndpointToTool

/-- `getEndpointKey` from mapper.ts. -/
def getEndpointKey (endpoint : OpenAPIEndpoint) : String :=
  endpoint.method ++ ":" ++ endpoint.path

/-- `getAllEndpointKeys` from mapper.ts. -/
def getAllEndpointKeys (endpoints : List OpenAPIEndpoint) : List String :=
  endpoints.map getEndpointKey

/-- The `oauth2Config` block of `GeneratorOptions`. -/
structure OAuth2Config where
  authorizationServerUrl : Option String
  scopes : Option (List String)
  resourceUrl : Option String
  jwksCacheTtlSeconds : Option Nat
  deriving Repr, DecidableEq

/-- `GeneratorOptions` from types.ts (the `prompts` list is carried as the
prompt names; generator.ts only interpolates them into text). -/
structure GeneratorOptions where
  name : String
  version : Option String
  baseUrl : String
  enabledEndpoints : Option (List String)
  emcyEnabled : Option Bool
  localSdkPath : Option String
  oauth2Config : Option OAuth2Config
  prompts : Option (List String)
  deriving Repr, DecidableEq

/-- Abbreviated rendering of `generatePackageJson`: the emitted JSON is
condensed to its configuration-dependent skeleton (name, version, and the
telemetry dependency that switches between a registry version and a
`file:` reference). -/
def generatePackageJson (options : GeneratorOptions) : String :=
  "package name=" ++ options.name ++ " version=" ++ options.version.getD "1.0.0" ++
    (if options.emcyEnabled.getD false then
      " dep emcy-sdk=" ++ (match options.localSdkPath with
        | some p => "file:" ++ p
        | none => "^0.1.0")
    else "")

/-- Abbreviated rendering of `generateTsConfig`: a constant document. -/
def generateTsConfig : String :=
  "tsconfig target=ES2022 module=NodeNext"

/-- Abbreviated rendering of `generateServerEntry`: the per-tool lookup
table keyed by tool name plus the telemetry import and OAuth guard markers
toggled by the flags. -/
def generateServerEntry (tools : List McpToolDefinition)
    (options : GeneratorOptions) (securitySchemes : List (String × SecurityScheme)) : String :=
  "index tools=" ++ String.intercalate "," (tools.map (fun t => t.name)) ++
    " schemes=" ++ String.intercalate "," (securitySchemes.map (fun s => s.1)) ++
    (if options.emcyEnabled.getD false then " emcy-telemetry" else "") ++
    (match options.oauth2Config with
      | some cfg => match cfg.authorizationServerUrl with
        | some url => " oauth-guard=" ++ url
        | none => ""
      | none => "")

/-- Abbreviated rendering of `generateTransport`. -/
def generateTransport (options : GeneratorOptions) : String :=
  "transport stdio+streamable-http base=" ++ options.baseUrl

/-- Abbreviated rendering of `generateEnvExample`: infrastructure variables
plus the conditional telemetry block. -/
def generateEnvExample (tools : List McpToolDefinition)
    (securitySchemes : List (String × SecurityScheme)) (options : GeneratorOptions) : String :=
  "API_BASE_URL=" ++ options.baseUrl ++ " PORT=3000" ++
    " schemes=" ++ String.intercalate "," (securitySchemes.map (fun s => s.1)) ++
    " tools=" ++ toString tools.length ++
    (if options.emcyEnabled.getD false then " EMCY_API_KEY=" else "")

/-- Abbreviated rendering of `generateReadme`. -/
def generateReadme (options : GeneratorOptions) : String :=
  "readme " ++ options.name

/-- `generateMcpServer` from generator.ts: the bundle object receives the
six fixed keys, unconditionally and in this assignment order (the keys are
pairwise distinct, so the sequence of JS assignments is this literal).
File contents are the abbreviated renderings above; claim C7 is about the
key set, which the real template text does not influence. -/
def generateMcpServer (tools : List McpToolDefinition) (options : GeneratorOptions)
    (securitySchemes : List (String × SecurityScheme)) : List (String × String) :=
  [("package.json", generatePackageJson options),
   ("tsconfig.json", generateTsConfig),
   ("src/index.ts", generateServerEntry tools options securitySchemes),
   ("src/transport.ts", generateTransport options),
   (".env.example", generateEnvExample tools securitySchemes options),
   ("README.md", generateReadme options)]

/-- Modelled from the spec wording of C4: the required parameter names in
declaration order, then `"requestBody"` when a required body exists. -/
def specRequiredNames (endpoint : OpenAPIEndpoint) : List String :=
  (endpoint.parameters.filter (fun p => p.required)).map (fun p => p.name) ++
    (match endpoint.requestBody with
     | some rb => if rb.required then ["requestBody"] else []
     | none => [])

/-- True when two character lists differ at some position that lies inside
both; such lists stay different under arbitrary right extension. -/
def diffWithin : List Char → List Char → Bool
  | a :: s, b :: t => a ≠ b || diffWithin s t
  | _, _ => false

/-- Sample endpoint used by the witnesses. -/
def sampleEndpoint : OpenAPIEndpoint :=
  { operationId := "GetUsers"
    method := "GET"
    path := "/users"
    summary := none
    description := none
    parameters := []
    requestBody := none
    securitySchemes := []
    tags := [] }

/-- A path item carrying a single GET operation without an explicit
operationId; used to exhibit the operationId collision. -/
def bareGetItem : PathItem :=
  { get := some
      { operationId := none
        summary := none
        description := none
        parameters := []
        requestBody := none
        security := []
        tags := [] }
    post := none
    put := none
    patch := none
    delete := none
    head := none
    options := none
    parameters := [] }

/-- A document declaring `GET /users/\x7bid\x7d` and `GET /users/byId`,
both without explicit operationIds. -/
def collidingDoc : ApiDoc :=
  { title := "collide"
    version := "1.0.0"
    description := none
    servers := []
    paths := [("/users/{id}", some (RefOr.obj bareGetItem)),
              ("/users/byId", some (RefOr.obj bareGetItem))]
    securitySchemes := [] }

/-- A plain string schema, used by concrete examples. -/
def plainStringSchema : JSONSchemaType :=
  { type := some "string", format := none, description := none }

/-- A plain object schema, used by concrete examples. -/
def plainObjectSchema : JSONSchemaType :=
  { type := some "object", format := none, description := none }

/-- A request body declaring `text/plain` (with a schema) first and
`application/json` without a schema second. -/
def jsonWithoutSchemaBody : RawRequestBody :=
  { required := some true
    content := [("text/plain", { schema := some plainStringSchema }),
                ("application/json", { schema := none })] }

/-- A request body declaring `application/json` (with a schema) after
another media type; json must win. -/
def jsonPreferredBody : RawRequestBody :=
  { required := none
    content := [("text/plain", { schema := some plainStringSchema }),
                ("application/json", { schema := some plainObjectSchema })] }

/-- A request body without `application/json` whose first declared media
object carries no schema while a later one does; nothing is retained. -/
def noSchemaFirstBody : RawRequestBody :=
  { required := some false
    content := [("text/plain", { schema := none }),
                ("application/xml", { schema := some plainObjectSchema })] }

/-- A request body whose only declared content key is the empty string
(falsy in JS); nothing is retained despite its schema. -/
def emptyKeyBody : RawRequestBody :=
  { required := none
    content := [("", { schema := some plainStringSchema })] }

/-- A path-level parameter named `id`, used by the C9 witness. -/
def dupPathParam : RawParameter :=
  { name := "id"
    location := "path"
    required := some true
    schema := some { type := some "integer", format := none, description := none }
    description := some "path-level copy" }

/-- An operation-level parameter also named `id`, used by the C9 witness. -/
def dupOpParam : RawParameter :=
  { name := "id"
    location := "query"
    required := some true
    schema := some plainStringSchema
    description := some "operation-level copy" }

/-- An operation whose only parameter is the operation-level `id` copy. -/
def dupParamOperation : Operation :=
  { operationId := none
    summary := none
    description := none
    parameters := [RefOr.obj dupOpParam]
    requestBody := none
    security := []
    tags := [] }

/-- An endpoint that has both a parameter literally named `requestBody` and
a required request body, used by the C10 witness. -/
def clashEndpoint : OpenAPIEndpoint :=
  { operationId := "PostThings"
    method := "POST"
    path := "/things"
    summary := none
    description := none
    parameters := [{ name := "requestBody"
                     location := "query"
                     required := true
                     schema := plainStringSchema
                     description := some "a query parameter that clashes" }]
    requestBody := some { required := true
                          contentType := "application/json"
                          schema := plainObjectSchema }
    securitySchemes := []
    tags := [] }

lemma splitSlash_ne_nil (cs : List Char) : splitSlash cs ≠ [] := by
  induction cs with
  | nil => simp [splitSlash]
  | cons c cs ih =>
    simp only [splitSlash]
    split
    · simp
    · match h : splitSlash cs with
      | [] => simp
      | s :: rest => simp

/-- The character-level splitter of `generateOperationId` agrees with
Mathlib's `List.splitOn`. -/
lemma splitSlash_eq_splitOn (cs : List Char) : splitSlash cs = cs.splitOn '/' := by
  induction cs with
  | nil => rfl
  | cons c cs ih =>
    simp only [splitSlash, List.splitOn, List.splitOnP_cons]
    by_cases hc : c = '/'
    · simp [hc, ← ih]
      rw [← List.splitOn]
      exact ih
    · simp only [hc, if_neg, beq_iff_eq, if_false]
      rw [← List.splitOn, ← ih]
      match h : splitSlash cs with
      | [] => exact absurd h (splitSlash_ne_nil cs)
      | s :: rest => simp [List.modifyHead]

lemma append_ne_of_diffWithin {s t : List Char} (h : diffWithin s t = true)
    (u v : List Char) : s ++ u ≠ t ++ v := by
  induction s generalizing t u v with
  | nil => cases t <;> simp [diffWithin] at h
  | cons a s ih =>
    cases t with
    | nil => simp [diffWithin] at h
    | cons b t =>
      simp only [diffWithin, Bool.or_eq_true, decide_eq_true_eq] at h
      intro hEq
      simp only [List.cons_append, List.cons.injEq] at hEq
      rcases h with hab | hrec
      · exact hab hEq.1
      · exact ih hrec u v hEq.2

lemma genId_ne_of_diffWithin (m₁ m₂ p₁ p₂ : String)
    (h : diffWithin (capitalizeL (m₁.data.map Char.toLower))
      (capitalizeL (m₂.data.map Char.toLower)) = true) :
    generateOperationId m₁ p₁ ≠ generateOperationId m₂ p₂ := by
  intro hEq
  exact append_ne_of_diffWithin h _ _ (congrArg String.data hEq)

lemma foldl_schemaStep_snd (ps : List EndpointParameter)
    (props : List (String × JSONSchemaType)) (req : List String) :
    (ps.foldl schemaStep (props, req)).2 =
      req ++ (ps.filter (fun p => p.required)).map (fun p => p.name) := by
  induction ps generalizing props req with
  | nil => simp
  | cons p ps ih =>
    simp only [List.foldl_cons, schemaStep, List.filter_cons]
    by_cases hr : p.required
    · simp [hr, ih]
    · simp [hr, ih]

lemma ite_length_pos (l : List String) :
    (if l.length > 0 then some l else none) = if l = [] then none else some l := by
  cases l <;> simp

lemma extractEndpoint_path (path method : String) (operation : Operation)
    (ps : List (RefOr RawParameter)) :
    (extractEndpoint path method operation ps).path = path := rfl

lemma extractEndpoint_method (path method : String) (operation : Operation)
    (ps : List (RefOr RawParameter)) :
    (extractEndpoint path method operation ps).method = method := rfl

lemma filterMap_methods_proj (L : List (String × (PathItem → Option Operation)))
    (path : String) (item : PathItem) :
    ((L.filterMap (fun m => (m.2 item).map (fun operation =>
        extractEndpoint path (upperStr m.1) operation item.parameters))).map
      (fun e => (e.path, e.method))) =
    (L.filter (fun m => (m.2 item).isSome)).map (fun m => (path, upperStr m.1)) := by
  induction L with
  | nil => rfl
  | cons hd tl ih =>
    cases h : hd.2 item with
    | none => simp [List.filterMap_cons, List.filter_cons, h, ih]
    | some operation =>
        simp [List.filterMap_cons, List.filter_cons, h, ih,
          extractEndpoint_path, extractEndpoint_method]

/-- Claim C1: `generateOperationId` implements the published synthesis
contract — split the path on `/`, drop empty segments, render variables as
`"By" + Capitalize(name)` and other segments as `Capitalize(segment)`,
concatenate, prepend `Capitalize(lowercased(method))` — and yields the four
golden examples. -/
theorem C1_operationId_matches_contract :
    (∀ m p, generateOperationId m p = synthesizeSpec m p) ∧
    generateOperationId "get" "/users" = "GetUsers" ∧
    generateOperationId "get" "/users/{id}" = "GetUsersById" ∧
    generateOperationId "post" "/orders/{orderId}/items" = "PostOrdersByOrderIdItems" ∧
    generateOperationId "get" "/" = "Get" := by
  refine ⟨fun m p => ?_, by decide, by decide, by decide, by decide⟩
  unfold generateOperationId synthesizeSpec
  rw [splitSlash_eq_splitOn]
  rfl

/-- Claim C2 as stated is false: the distinct pairs `GET /users/\x7bid\x7d`
and `GET /users/byId`, neither carrying an explicit operationId, are both
synthesized to `GetUsersById`, so one extraction produces a duplicated
operationId. -/
theorem C2_counterexample :
    ((extractFromSpec collidingDoc).endpoints.map (fun e => (e.method, e.path))) =
      [("GET", "/users/{id}"), ("GET", "/users/byId")] ∧
    ((extractFromSpec collidingDoc).endpoints.map (fun e => e.operationId)) =
      ["GetUsersById", "GetUsersById"] := by decide

/-- Claim C2, amended: the synthesizer does guarantee distinct identifiers
for endpoints whose HTTP methods differ (drawn from the fixed method set as
extraction uppercases them); for a shared method, distinct paths may
collide, as `C2_counterexample` shows. -/
theorem C2_amended_distinct_methods (m₁ m₂ : String)
    (h₁ : m₁ ∈ httpMethods.map Prod.fst) (h₂ : m₂ ∈ httpMethods.map Prod.fst)
    (hne : m₁ ≠ m₂) (p₁ p₂ : String) :
    generateOperationId (upperStr m₁) p₁ ≠ generateOperationId (upperStr m₂) p₂ := by
  simp only [httpMethods, List.map_cons, List.map_nil] at h₁ h₂
  fin_cases h₁ <;> fin_cases h₂ <;>
    first
      | exact absurd rfl hne
      | exact genId_ne_of_diffWithin _ _ p₁ p₂ (by decide)

/-- Witness for `C2_amended_distinct_methods` at `get`/`post` with the path
`/users`. -/
theorem C2_amended_distinct_methods_witness :
    "get" ∈ httpMethods.map Prod.fst ∧ "post" ∈ httpMethods.map Prod.fst ∧
    ("get" : String) ≠ "post" ∧
    generateOperationId (upperStr "get") "/users" ≠
      generateOperationId (upperStr "post") "/users" :=
  ⟨by decide, by decide, by decide,
    C2_amended_distinct_methods "get" "post" (by decide) (by decide) (by decide)
      "/users" "/users"⟩

/-- Claim C3: filtering is a strict subset operation — with an allow-list
`S`, `mapToMcpTools` returns at most `|E|` tools, and every returned tool's
`METHOD:path` key (uppercase method, colon, path template as declared,
no normalization) is a member of `S`; the hypothesis records that the
endpoint methods are stored uppercased, as extraction produces them. -/
theorem C3_filtering_subset (E : List OpenAPIEndpoint) (S : List String)
    (hup : ∀ e ∈ E, upperStr (lowerStr e.method) = e.method) :
    (mapToMcpTools E (some S)).length ≤ E.length ∧
    ∀ t ∈ mapToMcpTools E (some S),
      upperStr t.httpMethod ++ ":" ++ t.pathTemplate ∈ S := by
  constructor
  · unfold mapToMcpTools
    rw [List.length_map]
    exact List.length_filter_le _ _
  · intro t ht
    simp only [mapToMcpTools, List.mem_map, List.mem_filter] at ht
    obtain ⟨e, ⟨heE, hkey⟩, rfl⟩ := ht
    have hmem : e.method ++ ":" ++ e.path ∈ S := by simpa using hkey
    have hproj : (mapEndpointToTool e).httpMethod = lowerStr e.method := rfl
    have hpath : (mapEndpointToTool e).pathTemplate = e.path := rfl
    rw [hproj, hpath, hup e heE]
    exact hmem

/-- Witness for `C3_filtering_subset` on a one-endpoint list and the
allow-list containing its key. -/
theorem C3_filtering_subset_witness :
    (∀ e ∈ [sampleEndpoint], upperStr (lowerStr e.method) = e.method) ∧
    ((mapToMcpTools [sampleEndpoint] (some ["GET:/users"])).length ≤
        ([sampleEndpoint] : List OpenAPIEndpoint).length ∧
      ∀ t ∈ mapToMcpTools [sampleEndpoint] (some ["GET:/users"]),
        upperStr t.httpMethod ++ ":" ++ t.pathTemplate ∈ ["GET:/users"]) :=
  ⟨by decide, C3_filtering_subset [sampleEndpoint] ["GET:/users"] (by decide)⟩

/-- Claim C4: the synthesized input schema's `required` field is omitted
(`none`, never an empty array) exactly when no name is collected, and
otherwise holds the required parameter names in declaration order followed
by `"requestBody"` last when a required body exists. -/
theorem C4_required_ordering (endpoint : OpenAPIEndpoint) :
    (buildInputSchema endpoint).required =
      if specRequiredNames endpoint = [] then none
      else some (specRequiredNames endpoint) := by
  have h : (buildInputSchema endpoint).required =
      if (specRequiredNames endpoint).length > 0
      then some (specRequiredNames endpoint) else none := by
    unfold buildInputSchema specRequiredNames
    cases hrb : endpoint.requestBody with
    | none => simp [foldl_schemaStep_snd]
    | some rb =>
      by_cases hr : rb.required
      · simp [hr, foldl_schemaStep_snd]
      · simp [hr, foldl_schemaStep_snd]
  rw [h, ite_length_pos]

/-- Claim C5: extraction returns endpoints in the deterministic order given
by path templates in source declaration order and, within each path, the
fixed method order `get, post, put, patch, delete, head, options`
(uppercased); null and `$ref` path items contribute nothing. -/
theorem C5_extraction_order (api : ApiDoc) :
    httpMethods.map Prod.fst =
      ["get", "post", "put", "patch", "delete", "head", "options"] ∧
    (extractFromSpec api).endpoints.map (fun e => (e.path, e.method)) =
      api.paths.flatMap (fun entry =>
        match entry.2 with
        | some (RefOr.obj item) =>
            (httpMethods.filter (fun m => (m.2 item).isSome)).map
              (fun m => (entry.1, upperStr m.1))
        | _ => []) := by
  refine ⟨by decide, ?_⟩
  unfold extractFromSpec
  rw [List.map_flatMap]
  congr 1
  funext entry
  obtain ⟨p, io⟩ := entry
  cases io with
  | none => rfl
  | some r =>
    cases r with
    | ref target => rfl
    | obj item => exact filterMap_methods_proj httpMethods p item

/-- Claim C6 as stated is false, in each of its two halves: on
`jsonWithoutSchemaBody`, `application/json` is declared yet the retained
media type is `text/plain`; on `noSchemaFirstBody` (no json declared) the
first declared content type is not used — nothing is retained although a
later media object carries a schema; and on `emptyKeyBody` the first (and
only) declared content type is likewise not used because its key is the
empty string. -/
theorem C6_counterexample :
    (("application/json" ∈ jsonWithoutSchemaBody.content.map Prod.fst) ∧
      (extractRequestBody jsonWithoutSchemaBody).map (fun d => d.contentType) =
        some "text/plain") ∧
    (noSchemaFirstBody.content.head?.map Prod.fst = some "text/plain" ∧
      "application/json" ∉ noSchemaFirstBody.content.map Prod.fst ∧
      extractRequestBody noSchemaFirstBody = none) ∧
    (emptyKeyBody.content.head?.isSome = true ∧
      extractRequestBody emptyKeyBody = none) := by decide

/-- Claim C6, amended: at most one media type is retained;
`application/json` is retained when it is declared with a schema;
otherwise the first declared content type of the source map's insertion
order is retained exactly when its key is non-empty and its media object
carries a schema, and no media type is retained in every remaining case. -/
theorem C6_amended_media_selection (body : RawRequestBody) :
    (∀ s, (List.lookup "application/json" body.content).bind (fun mt => mt.schema) = some s →
      extractRequestBody body =
        some { required := body.required.getD false
               contentType := "application/json"
               schema := s }) ∧
    ((List.lookup "application/json" body.content).bind (fun mt => mt.schema) = none →
      (∀ ct mt s, body.content.head? = some (ct, mt) → ct ≠ "" → mt.schema = some s →
        extractRequestBody body =
          some { required := body.required.getD false
                 contentType := ct
                 schema := s }) ∧
      (∀ ct mt, body.content.head? = some (ct, mt) → ct = "" ∨ mt.schema = none →
        extractRequestBody body = none) ∧
      (body.content.head? = none → extractRequestBody body = none)) := by
  constructor
  · intro s hs
    unfold extractRequestBody
    rw [hs]
  · intro hnone
    refine ⟨?_, ?_, ?_⟩
    · intro ct mt s hh hct hs
      unfold extractRequestBody
      rw [hnone, hh]
      simp [hct, hs]
    · intro ct mt hh hor
      unfold extractRequestBody
      rw [hnone, hh]
      rcases hor with hct | hs
      · simp [hct]
      · by_cases hct : ct = ""
        · simp [hct]
        · simp [hct, hs]
    · intro hh
      unfold extractRequestBody
      rw [hnone, hh]

/-- Witness for `C6_amended_media_selection`, exercising all three
behaviors: `application/json` wins on `jsonPreferredBody` even though it
is declared second; the fallback retains the first declared content type
`text/plain` on `jsonWithoutSchemaBody`; and nothing is retained on
`noSchemaFirstBody`, whose first media object has no schema. -/
theorem C6_amended_media_selection_witness :
    (extractRequestBody jsonPreferredBody =
      some { required := jsonPreferredBody.required.getD false
             contentType := "application/json"
             schema := plainObjectSchema }) ∧
    ((List.lookup "application/json" jsonWithoutSchemaBody.content).bind
        (fun mt => mt.schema) = none ∧
      jsonWithoutSchemaBody.content.head? =
        some ("text/plain", { schema := some plainStringSchema }) ∧
      ("text/plain" : String) ≠ "" ∧
      extractRequestBody jsonWithoutSchemaBody =
        some { required := jsonWithoutSchemaBody.required.getD false
               contentType := "text/plain"
               schema := plainStringSchema }) ∧
    ((List.lookup "application/json" noSchemaFirstBody.content).bind
        (fun mt => mt.schema) = none ∧
      noSchemaFirstBody.content.head? = some ("text/plain", { schema := none }) ∧
      extractRequestBody noSchemaFirstBody = none) :=
  ⟨(C6_amended_media_selection jsonPreferredBody).1 plainObjectSchema (by decide),
    ⟨by decide, by decide, by decide,
      ((C6_amended_media_selection jsonWithoutSchemaBody).2 (by decide)).1
        "text/plain" { schema := some plainStringSchema } plainStringSchema
        (by decide) (by decide) (by decide)⟩,
    ⟨by decide, by decide,
      ((C6_amended_media_selection noSchemaFirstBody).2 (by decide)).2.1
        "text/plain" { schema := none } (by decide) (Or.inr rfl)⟩⟩

/-- Claim C7: emission returns a bundle whose key list is exactly the six
fixed paths, for every tool list, configuration (telemetry on or off,
OAuth configured or not) and security-scheme table. -/
theorem C7_bundle_key_set (tools : List McpToolDefinition)
    (options : GeneratorOptions) (securitySchemes : List (String × SecurityScheme)) :
    (generateMcpServer tools options securitySchemes).map Prod.fst =
      ["package.json", "tsconfig.json", "src/index.ts", "src/transport.ts",
       ".env.example", "README.md"] := rfl

/-- Claim C8: filtering with the key set derived from
`getAllEndpointKeys(endpoints)` keeps every endpoint, so the result is the
toolification of the whole list, in order — the i-th tool corresponds to
the i-th endpoint. -/
theorem C8_roundTrip (endpoints : List OpenAPIEndpoint) :
    mapToMcpTools endpoints (some (getAllEndpointKeys endpoints)) =
      endpoints.map mapEndpointToTool := by
  unfold mapToMcpTools
  congr 1
  apply List.filter_eq_self.mpr
  intro e he
  simp [getAllEndpointKeys, getEndpointKey]
  exact ⟨e, he, rfl⟩

/-- Claim C9: when a path-level parameter and an operation-level parameter
share a name, both are kept in the merged parameter list; the input
schema's properties entry for that name holds the node derived from the
operation-level copy (last write wins), and when both copies are required
the name appears twice in the `required` array. -/
theorem C9_duplicate_parameter_names (path method : String) (operation : Operation)
    (P Q : RawParameter) (hname : P.name = Q.name)
    (hps : operation.parameters = [RefOr.obj Q])
    (hbody : operation.requestBody = none) :
    (extractEndpoint path method operation [RefOr.obj P]).parameters =
      [extractParameter P, extractParameter Q] ∧
    List.lookup Q.name
        (buildInputSchema (extractEndpoint path method operation [RefOr.obj P])).properties =
      some (paramProperty (extractParameter Q)) ∧
    ((extractParameter P).required = true → (extractParameter Q).required = true →
      (buildInputSchema (extractEndpoint path method operation [RefOr.obj P])).required =
        some [Q.name, Q.name]) := by
  have hname' : (extractParameter P).name = Q.name := hname
  have hnameQ : (extractParameter Q).name = Q.name := rfl
  have hparams : (extractEndpoint path method operation [RefOr.obj P]).parameters =
      [extractParameter P, extractParameter Q] := by
    simp [extractEndpoint, hps]
  have hrb : (extractEndpoint path method operation [RefOr.obj P]).requestBody = none := by
    simp [extractEndpoint, hbody]
  refine ⟨hparams, ?_, ?_⟩
  · simp [buildInputSchema, hparams, hrb, schemaStep, setKey, hname', hnameQ]
  · intro hP hQ
    simp [buildInputSchema, hparams, hrb, schemaStep, setKey, hname', hnameQ, hP, hQ]

/-- Witness for `C9_duplicate_parameter_names` on the concrete `id`
parameter pair. -/
theorem C9_duplicate_parameter_names_witness :
    dupPathParam.name = dupOpParam.name ∧
    dupParamOperation.parameters = [RefOr.obj dupOpParam] ∧
    dupParamOperation.requestBody = none ∧
    (extractParameter dupPathParam).required = true ∧
    (extractParameter dupOpParam).required = true ∧
    List.lookup dupOpParam.name
        (buildInputSchema
          (extractEndpoint "/users/{id}" "GET" dupParamOperation
            [RefOr.obj dupPathParam])).properties =
      some (paramProperty (extractParameter dupOpParam)) ∧
    (buildInputSchema
        (extractEndpoint "/users/{id}" "GET" dupParamOperation
          [RefOr.obj dupPathParam])).required =
      some [dupOpParam.name, dupOpParam.name] :=
  ⟨by decide, by decide, by decide, by decide, by decide,
    (C9_duplicate_parameter_names "/users/{id}" "GET" dupParamOperation
      dupPathParam dupOpParam (by decide) (by decide) (by decide)).2.1,
    (C9_duplicate_parameter_names "/users/{id}" "GET" dupParamOperation
      dupPathParam dupOpParam (by decide) (by decide) (by decide)).2.2
      (by decide) (by decide)⟩

/-- Claim C10: for an endpoint with both a parameter literally named
`requestBody` and a request body, the properties entry under `requestBody`
holds the body schema with the fixed description
`"The JSON request body."` (overwriting the parameter's entry), and when
both the parameter and the body are required, `requestBody` appears twice
in the `required` array. -/
theorem C10_requestBody_key_clash (endpoint : OpenAPIEndpoint)
    (p : EndpointParameter) (rb : RequestBodySchema)
    (hp : endpoint.parameters = [p]) (hname : p.name = "requestBody")
    (hrb : endpoint.requestBody = some rb) :
    List.lookup "requestBody" (buildInputSchema endpoint).properties =
      some { rb.schema with description := some "The JSON request body." } ∧
    (p.required = true → rb.required = true →
      (buildInputSchema endpoint).required = some ["requestBody", "requestBody"]) := by
  constructor
  · simp [buildInputSchema, hp, hrb, schemaStep, setKey, hname]
  · intro hpr hrr
    simp [buildInputSchema, hp, hrb, schemaStep, setKey, hname, hpr, hrr]

/-- Witness for `C10_requestBody_key_clash` on `clashEndpoint`. -/
theorem C10_requestBody_key_clash_witness :
    clashEndpoint.parameters =
      [{ name := "requestBody"
         location := "query"
         required := true
         schema := plainStringSchema
         description := some "a query parameter that clashes" }] ∧
    clashEndpoint.requestBody =
      some { required := true
             contentType := "application/json"
             schema := plainObjectSchema } ∧
    List.lookup "requestBody" (buildInputSchema clashEndpoint).properties =
      some { plainObjectSchema with description := some "The JSON request body." } ∧
    (buildInputSchema clashEndpoint).required = some ["requestBody", "requestBody"] :=
  ⟨by decide, by decide,
    (C10_requestBody_key_clash clashEndpoint
      { name := "requestBody"
        location := "query"
        required := true
        schema := plainStringSchema
        description := some "a query parameter that clashes" }
      { required := true
        contentType := "application/json"
        schema := plainObjectSchema }
      (by decide) (by decide) (by decide)).1,
    (C10_requestBody_key_clash clashEndpoint
      { name := "requestBody"
        location := "query"
        required := true
        schema := plainStringSchema
        description := some "a query parameter that clashes" }
      { required := true
        contentType := "application/json"
        schema := plainObjectSchema }
      (by decide) (by decide) (by decide)).2 (by decide) (by decide)⟩

end OpenApiToMcp
